import Mathlib

set_option maxHeartbeats 1000000

/-
Shallow embedding of osx-dock-dodger-rs (src/main.rs).

The program keeps a list of "managed" application bundles whose Dock icon
has been hidden by rewriting the LSUIElement key of the bundle's
Contents/Info.plist.  We embed:

  * paths as an identity string together with the result of
    Path::extension() (an OS string that may or may not be valid UTF-8);
  * the plist world as a per-path document state (absent, malformed, or a
    parsed Value with its stored encoding) plus a write-failure flag
    modelling the environment of plist::to_file_xml;
  * hide_dock_icon / restore_dock_icon / is_app_bundle / handle_app_drop
    directly from the source, and the UserEvent::Restore arm of the event
    loop as handle_restore_event;
  * the wry IPC handler closure as ipc_handler over an inbound message
    that either failed serde_json parsing or carried cmd/path fields.
-/

namespace DockDodger

/-- Result of an OS-string (OsStr) as handed to Path::extension: either a
valid UTF-8 string or a byte sequence that fails `to_str` (identified by a
tag). -/
inductive OsStr where
  | valid (s : String)
  | invalid (tag : Nat)
deriving DecidableEq

/-- OsStr::to_str — Some for valid UTF-8, None otherwise. -/
def OsStr.toStr : OsStr → Option String
  | .valid s => some s
  | .invalid _ => none

/-- A filesystem path: an identity part plus the result of
Path::extension() (none when the final component has no extension). -/
structure FsPath where
  base : String
  ext : Option OsStr
deriving DecidableEq

/-- One registry entry, struct ManagedApp { path: PathBuf } (main.rs:10-13). -/
structure ManagedApp where
  path : FsPath
deriving DecidableEq

/-- ASCII-only lowering of a character, as used by str::eq_ignore_ascii_case. -/
def asciiLower (c : Char) : Char :=
  if 'A' ≤ c ∧ c ≤ 'Z' then Char.ofNat (c.toNat + 32) else c

/-- str::eq_ignore_ascii_case. -/
def eqIgnoreAsciiCase (a b : String) : Bool :=
  a.data.map asciiLower == b.data.map asciiLower

/-- is_app_bundle (main.rs:47-52):
path.extension().and_then(to_str).map(eq_ignore_ascii_case "app").unwrap_or(false). -/
def is_app_bundle (p : FsPath) : Bool :=
  ((p.ext.bind OsStr.toStr).map (fun s => eqIgnoreAsciiCase s "app")).getD false

/-- plist::Value, restricted to the shapes the program distinguishes: a
dictionary (ordered key/value list), a string, or anything else. -/
inductive Value where
  | dictionary (entries : List (String × Value))
  | string (s : String)
  | other (tag : Nat)

/-- plist::Dictionary::insert — replaces the value in place when the key is
present (keeping its position), appends at the end otherwise. -/
def dictInsert : List (String × Value) → String → Value → List (String × Value)
  | [], k, v => [(k, v)]
  | (k', v') :: rest, k, v =>
    if k' = k then (k', v) :: rest else (k', v') :: dictInsert rest k v

/-- plist::Dictionary::get — first entry with the given key. -/
def dictGet : List (String × Value) → String → Option Value
  | [], _ => none
  | (k', v') :: rest, k => if k' = k then some v' else dictGet rest k

/-- Stored encoding of a plist document on disk. -/
inductive Encoding where
  | xml
  | binary
deriving DecidableEq

/-- The Contents/Info.plist of one bundle as Value::from_file sees it:
missing, unparsable, or parsed to a Value stored in some encoding. -/
inductive PlistDoc where
  | absent
  | malformed
  | doc (enc : Encoding) (v : Value)

/-- Per-bundle metadata state: the document plus whether a write-back by
plist::to_file_xml would fail (permissions, disk full). -/
structure PlistState where
  file : PlistDoc
  writeFails : Bool

/-- Errors surfaced by the metadata mutator (Box<dyn Error> in the source,
split by cause). -/
inductive MutErr where
  | notFound
  | parseError
  | writeError
deriving DecidableEq

/-- hide_dock_icon (main.rs:27-35): load the plist; when it is a
dictionary, insert LSUIElement = "1" and write back as XML; otherwise
return Ok without touching the file. -/
def hide_dock_icon (st : PlistState) : Except MutErr PlistState :=
  match st.file with
  | .absent => .error .notFound
  | .malformed => .error .parseError
  | .doc _ v =>
    match v with
    | .dictionary d =>
      if st.writeFails then .error .writeError
      else .ok (PlistState.mk
        (.doc .xml (.dictionary (dictInsert d "LSUIElement" (.string "1"))))
        st.writeFails)
    | _ => .ok st

/-- restore_dock_icon (main.rs:37-45): same as hide_dock_icon but writes
LSUIElement = "0". -/
def restore_dock_icon (st : PlistState) : Except MutErr PlistState :=
  match st.file with
  | .absent => .error .notFound
  | .malformed => .error .parseError
  | .doc _ v =>
    match v with
    | .dictionary d =>
      if st.writeFails then .error .writeError
      else .ok (PlistState.mk
        (.doc .xml (.dictionary (dictInsert d "LSUIElement" (.string "0"))))
        st.writeFails)
    | _ => .ok st

/-- Outcome names (from the spec) for the branches of handle_app_drop. -/
inductive AdmitOutcome where
  | Added
  | RejectedNotBundle
  | RejectedDuplicate
  | RejectedMutationFailed (e : MutErr)
deriving DecidableEq

/-- Outcome names (from the spec) for the branches of the Restore event
arm.  RejectedNotManaged is included so the spec's claimed outcome is
statable; no branch of the source produces it. -/
inductive ReleaseOutcome where
  | Removed
  | RejectedNotManaged
  | RejectedMutationFailed (e : MutErr)
deriving DecidableEq

/-- Point update of the plist world after a successful write at p. -/
def updateFs (fs : FsPath → PlistState) (p : FsPath) (st : PlistState) :
    FsPath → PlistState :=
  fun q => if q = p then st else fs q

/-- handle_app_drop (main.rs:460-484): reject non-.app paths, then exact
duplicates, then call hide_dock_icon; only on success push the new
ManagedApp onto the end of the list. -/
def handle_app_drop (p : FsPath) (apps : List ManagedApp)
    (fs : FsPath → PlistState) :
    AdmitOutcome × List ManagedApp × (FsPath → PlistState) :=
  if !is_app_bundle p then
    (.RejectedNotBundle, apps, fs)
  else if apps.any (fun a => a.path == p) then
    (.RejectedDuplicate, apps, fs)
  else
    match hide_dock_icon (fs p) with
    | .ok st => (.Added, apps ++ [ManagedApp.mk p], updateFs fs p st)
    | .error _e => (.RejectedMutationFailed _e, apps, fs)

/-- The UserEvent::Restore arm of the event loop (main.rs:507-520): call
restore_dock_icon unconditionally; on success retain every entry whose
path differs from p; on failure leave the list alone. -/
def handle_restore_event (p : FsPath) (apps : List ManagedApp)
    (fs : FsPath → PlistState) :
    ReleaseOutcome × List ManagedApp × (FsPath → PlistState) :=
  match restore_dock_icon (fs p) with
  | .ok st => (.Removed, apps.filter (fun a => a.path != p), updateFs fs p st)
  | .error _e => (.RejectedMutationFailed _e, apps, fs)

/-- struct IpcRequest { cmd: String, path: String } (main.rs:21-25); the
path is the PathBuf::from image of the field. -/
structure IpcRequest where
  cmd : String
  path : FsPath
deriving DecidableEq

/-- An inbound surface message, by its serde_json::from_str fate: either it
fails to parse as an IpcRequest (invalid JSON or a missing cmd/path field),
or it parsed with the two fields. -/
inductive IpcMessage where
  | malformed (raw : String)
  | request (req : IpcRequest)
deriving DecidableEq

/-- The with_ipc_handler closure (main.rs:447-454): the restore path it
dispatches into the event loop, if any. -/
def ipc_handler : IpcMessage → Option FsPath
  | .malformed _ => none
  | .request req => if req.cmd = "restore" then some req.path else none

/-- One inbound surface message routed through the handler to the registry:
a dispatched path runs the Restore arm, anything else leaves the state
alone. -/
def route_ipc (m : IpcMessage) (apps : List ManagedApp)
    (fs : FsPath → PlistState) :
    List ManagedApp × (FsPath → PlistState) :=
  match ipc_handler m with
  | some p =>
    ((handle_restore_event p apps fs).2.1, (handle_restore_event p apps fs).2.2)
  | none => (apps, fs)

/-- Reading the suppression key back from a bundle's document (the
observation the round-trip property is stated over). -/
def plistKey (st : PlistState) (k : String) : Option Value :=
  match st.file with
  | .doc _ (.dictionary d) => dictGet d k
  | _ => none

/-- Sample path: a well-formed .app bundle path. -/
def pFoo : FsPath := FsPath.mk "/Applications/Foo" (some (OsStr.valid "app"))

/-- Sample path: a .txt file. -/
def pTxt : FsPath := FsPath.mk "/tmp/notes" (some (OsStr.valid "txt"))

/-- Sample path: no extension at all. -/
def pNoExt : FsPath := FsPath.mk "/usr/local/bin/tool" none

/-- Sample path: extension bytes that are not valid UTF-8. -/
def pBadUtf8 : FsPath := FsPath.mk "/tmp/weird" (some (OsStr.invalid 0))

/-- Sample metadata state: an empty dictionary document, writes succeed. -/
def stDict : PlistState := PlistState.mk (.doc .xml (.dictionary [])) false

/-- Sample metadata state: the Info.plist is missing. -/
def stAbsent : PlistState := PlistState.mk .absent false

/-- Sample metadata state: a non-dictionary top-level value stored in the
binary encoding. -/
def stNonDict : PlistState := PlistState.mk (.doc .binary (.string "x")) false

/-- Sample world: every bundle has the empty-dictionary document. -/
def fs0 : FsPath → PlistState := fun _ => stDict

/-- Sample world: every Info.plist is missing. -/
def fsAbsent : FsPath → PlistState := fun _ => stAbsent

/-- stDict after a successful hide: LSUIElement = "1". -/
def stHidden : PlistState :=
  PlistState.mk (.doc .xml (.dictionary [("LSUIElement", .string "1")])) false

/-- stDict after a successful restore: LSUIElement = "0". -/
def stShown : PlistState :=
  PlistState.mk (.doc .xml (.dictionary [("LSUIElement", .string "0")])) false

/-! Helper lemmas about the ordered-dictionary insert. -/

theorem dictGet_dictInsert_self (d : List (String × Value)) (k : String) (v : Value) :
    dictGet (dictInsert d k v) k = some v := by
  induction d with
  | nil => simp [dictInsert, dictGet]
  | cons hd tl ih =>
    obtain ⟨k0, v0⟩ := hd
    by_cases h0 : k0 = k
    · simp [dictInsert, dictGet, h0]
    · simp [dictInsert, dictGet, h0, ih]

theorem dictGet_dictInsert_ne (d : List (String × Value)) (k k' : String) (v : Value)
    (h : k' ≠ k) : dictGet (dictInsert d k v) k' = dictGet d k' := by
  have h' : k ≠ k' := Ne.symm h
  induction d with
  | nil => simp [dictInsert, dictGet, h']
  | cons hd tl ih =>
    obtain ⟨k0, v0⟩ := hd
    by_cases h0 : k0 = k
    · subst h0
      simp [dictInsert, dictGet, h']
    · simp [dictInsert, dictGet, h0, ih]

/-- C5: a path whose extension does not case-insensitively equal "app" is
rejected by admit as RejectedNotBundle; the registry and the plist world
are untouched, so no metadata mutation is attempted. -/
theorem C5_not_bundle_rejected (p : FsPath) (apps : List ManagedApp)
    (fs : FsPath → PlistState)
    (h : ∀ e s, p.ext = some e → OsStr.toStr e = some s →
      eqIgnoreAsciiCase s "app" = false) :
    is_app_bundle p = false ∧
    (handle_app_drop p apps fs).1 = AdmitOutcome.RejectedNotBundle ∧
    (handle_app_drop p apps fs).2.1 = apps ∧
    (handle_app_drop p apps fs).2.2 = fs := by
  have hb : is_app_bundle p = false := by
    unfold is_app_bundle
    cases hpe : p.ext with
    | none => rfl
    | some e =>
      cases hts : OsStr.toStr e with
      | none => simp [hts]
      | some s => simp [hts, h e s hpe hts]
  exact ⟨hb, by simp [handle_app_drop, hb], by simp [handle_app_drop, hb],
    by simp [handle_app_drop, hb]⟩

/-- Witness for C5 at the concrete path /tmp/notes.txt. -/
theorem C5_witness :
    is_app_bundle pTxt = false ∧
    (handle_app_drop pTxt [] fs0).1 = AdmitOutcome.RejectedNotBundle ∧
    (handle_app_drop pTxt [] fs0).2.1 = [] ∧
    (handle_app_drop pTxt [] fs0).2.2 = fs0 := by
  have h : ∀ e s, pTxt.ext = some e → OsStr.toStr e = some s →
      eqIgnoreAsciiCase s "app" = false := by
    intro e s he hs
    simp [pTxt] at he
    subst he
    simp [OsStr.toStr] at hs
    subst hs
    decide
  exact C5_not_bundle_rejected pTxt [] fs0 h

/-- C10: the bundle check is total at the interface: a path with no
extension, or whose extension is not valid UTF-8, makes is_app_bundle
false, and admit rejects it as RejectedNotBundle with nothing changed. -/
theorem C10_total_extension_check (p : FsPath) (apps : List ManagedApp)
    (fs : FsPath → PlistState)
    (h : p.ext = none ∨ ∃ e, p.ext = some e ∧ OsStr.toStr e = none) :
    is_app_bundle p = false ∧
    (handle_app_drop p apps fs).1 = AdmitOutcome.RejectedNotBundle ∧
    (handle_app_drop p apps fs).2.1 = apps ∧
    (handle_app_drop p apps fs).2.2 = fs := by
  have hb : is_app_bundle p = false := by
    rcases h with h | ⟨e, he, hts⟩
    · simp [is_app_bundle, h]
    · simp [is_app_bundle, he, hts]
  exact ⟨hb, by simp [handle_app_drop, hb], by simp [handle_app_drop, hb],
    by simp [handle_app_drop, hb]⟩

/-- Witness for C10 at a path with no extension and one with a non-UTF-8
extension. -/
theorem C10_witness :
    (is_app_bundle pNoExt = false ∧
     (handle_app_drop pNoExt [] fs0).1 = AdmitOutcome.RejectedNotBundle) ∧
    (is_app_bundle pBadUtf8 = false ∧
     (handle_app_drop pBadUtf8 [] fs0).1 = AdmitOutcome.RejectedNotBundle) := by
  have h1 := C10_total_extension_check pNoExt [] fs0 (Or.inl rfl)
  have h2 := C10_total_extension_check pBadUtf8 [] fs0
    (Or.inr ⟨OsStr.invalid 0, rfl, rfl⟩)
  exact ⟨⟨h1.1, h1.2.1⟩, ⟨h2.1, h2.2.1⟩⟩

/-- C6: when the document loads but its top-level value is not a
dictionary, both mutator directions are a no-op that still returns Ok:
the state (document and stored encoding) is unchanged, so no write-back
happened. -/
theorem C6_non_mapping_noop (st : PlistState) (enc : Encoding) (v : Value)
    (hfile : st.file = PlistDoc.doc enc v)
    (hnd : ∀ d, v ≠ Value.dictionary d) :
    hide_dock_icon st = Except.ok st ∧ restore_dock_icon st = Except.ok st := by
  constructor
  · unfold hide_dock_icon
    rw [hfile]
    cases v with
    | dictionary d => exact absurd rfl (hnd d)
    | string s => rfl
    | other t => rfl
  · unfold restore_dock_icon
    rw [hfile]
    cases v with
    | dictionary d => exact absurd rfl (hnd d)
    | string s => rfl
    | other t => rfl

/-- Witness for C6 at a binary-encoded string-valued document. -/
theorem C6_witness :
    hide_dock_icon stNonDict = Except.ok stNonDict ∧
    restore_dock_icon stNonDict = Except.ok stNonDict :=
  C6_non_mapping_noop stNonDict Encoding.binary (Value.string "x") rfl
    (fun d hd => by cases hd)

/-- C9: the IPC handler dispatches a restore exactly for a parsed message
whose cmd field equals "restore"; every other message (unrecognized cmd
or parse failure) dispatches nothing and routing it leaves the registry
and the plist world unchanged. -/
theorem C9_ipc_dispatch (m : IpcMessage) (apps : List ManagedApp)
    (fs : FsPath → PlistState) :
    (∀ p, ipc_handler m = some p ↔
      m = IpcMessage.request (IpcRequest.mk "restore" p)) ∧
    (ipc_handler m = none → route_ipc m apps fs = (apps, fs)) := by
  constructor
  · intro p
    cases m with
    | malformed raw => simp [ipc_handler]
    | request req =>
      obtain ⟨c, q⟩ := req
      by_cases hc : c = "restore"
      · subst hc
        simp [ipc_handler]
      · simp [ipc_handler, hc]
  · intro h
    unfold route_ipc
    rw [h]

/-- Witness for C9 on an unrecognized cmd, a parse failure, and the
restore cmd. -/
theorem C9_witness :
    ipc_handler (IpcMessage.request (IpcRequest.mk "status" pFoo)) = none ∧
    route_ipc (IpcMessage.request (IpcRequest.mk "status" pFoo))
      [ManagedApp.mk pFoo] fs0 = ([ManagedApp.mk pFoo], fs0) ∧
    ipc_handler (IpcMessage.malformed "not json") = none ∧
    route_ipc (IpcMessage.malformed "not json")
      [ManagedApp.mk pFoo] fs0 = ([ManagedApp.mk pFoo], fs0) ∧
    ipc_handler (IpcMessage.request (IpcRequest.mk "restore" pFoo)) = some pFoo := by
  refine ⟨by decide,
    (C9_ipc_dispatch (IpcMessage.request (IpcRequest.mk "status" pFoo))
      [ManagedApp.mk pFoo] fs0).2 (by decide),
    by decide,
    (C9_ipc_dispatch (IpcMessage.malformed "not json")
      [ManagedApp.mk pFoo] fs0).2 (by decide),
    ((C9_ipc_dispatch (IpcMessage.request (IpcRequest.mk "restore" pFoo))
      [ManagedApp.mk pFoo] fs0).1 pFoo).2 rfl⟩

/-- C2: when a bundle path is admitted out of a registry that does not yet
hold it and the metadata mutation succeeds, the first admit yields Added
and appends the entry; an immediately repeated admit yields
RejectedDuplicate, leaves the registry with exactly one entry for p, and
performs no metadata mutation (the plist world is untouched), because the
duplicate check precedes the mutator call. -/
theorem C2_admit_twice (p : FsPath) (apps : List ManagedApp)
    (fs : FsPath → PlistState) (st : PlistState)
    (hb : is_app_bundle p = true)
    (hnd : apps.any (fun a => a.path == p) = false)
    (hm : hide_dock_icon (fs p) = Except.ok st) :
    (handle_app_drop p apps fs).1 = AdmitOutcome.Added ∧
    (handle_app_drop p apps fs).2.1 = apps ++ [ManagedApp.mk p] ∧
    (handle_app_drop p (handle_app_drop p apps fs).2.1
      (handle_app_drop p apps fs).2.2).1 = AdmitOutcome.RejectedDuplicate ∧
    (handle_app_drop p (handle_app_drop p apps fs).2.1
      (handle_app_drop p apps fs).2.2).2.1 = (handle_app_drop p apps fs).2.1 ∧
    (handle_app_drop p (handle_app_drop p apps fs).2.1
      (handle_app_drop p apps fs).2.2).2.2 = (handle_app_drop p apps fs).2.2 ∧
    ((handle_app_drop p apps fs).2.1.filter (fun a => a.path == p)).length = 1 := by
  have h1 : handle_app_drop p apps fs
      = (AdmitOutcome.Added, apps ++ [ManagedApp.mk p], updateFs fs p st) := by
    simp [handle_app_drop, hb, hnd, hm]
  have hdup : (apps ++ [ManagedApp.mk p]).any (fun a => a.path == p) = true := by
    simp [List.any_append]
  have h2 : handle_app_drop p (apps ++ [ManagedApp.mk p]) (updateFs fs p st)
      = (AdmitOutcome.RejectedDuplicate, apps ++ [ManagedApp.mk p],
         updateFs fs p st) := by
    simp [handle_app_drop, hb, hdup]
  have hfilter : apps.filter (fun a => a.path == p) = [] := by
    rw [List.filter_eq_nil_iff]
    intro a ha
    have := List.any_eq_false.mp hnd a ha
    simpa using this
  rw [h1]
  refine ⟨rfl, rfl, ?_, ?_, ?_, ?_⟩
  · rw [h2]
  · rw [h2]
  · rw [h2]
  · simp [List.filter_append, hfilter]

/-- Witness for C2 at /Applications/Foo.app over the empty registry. -/
theorem C2_witness :
    (handle_app_drop pFoo [] fs0).1 = AdmitOutcome.Added ∧
    (handle_app_drop pFoo [] fs0).2.1 = [ManagedApp.mk pFoo] ∧
    (handle_app_drop pFoo (handle_app_drop pFoo [] fs0).2.1
      (handle_app_drop pFoo [] fs0).2.2).1 = AdmitOutcome.RejectedDuplicate := by
  have h := C2_admit_twice pFoo [] fs0 stHidden (by decide) rfl rfl
  exact ⟨h.1, h.2.1, h.2.2.1⟩

/-- C3: when the metadata mutator call made by admit (after the bundle and
duplicate checks pass) or by release fails, the operation reports
RejectedMutationFailed and both the registry and the plist world are left
exactly as they were. -/
theorem C3_mutation_failure_preserves (p : FsPath) (apps : List ManagedApp)
    (fs : FsPath → PlistState) :
    (∀ e, is_app_bundle p = true →
      apps.any (fun a => a.path == p) = false →
      hide_dock_icon (fs p) = Except.error e →
      (handle_app_drop p apps fs).1 = AdmitOutcome.RejectedMutationFailed e ∧
      (handle_app_drop p apps fs).2.1 = apps ∧
      (handle_app_drop p apps fs).2.2 = fs) ∧
    (∀ e, restore_dock_icon (fs p) = Except.error e →
      (handle_restore_event p apps fs).1 = ReleaseOutcome.RejectedMutationFailed e ∧
      (handle_restore_event p apps fs).2.1 = apps ∧
      (handle_restore_event p apps fs).2.2 = fs) := by
  constructor
  · intro e hb hnd hm
    refine ⟨?_, ?_, ?_⟩ <;> simp [handle_app_drop, hb, hnd, hm]
  · intro e hm
    refine ⟨?_, ?_, ?_⟩ <;> simp [handle_restore_event, hm]

/-- Witness for C3 in a world where every Info.plist is missing. -/
theorem C3_witness :
    (handle_app_drop pFoo [] fsAbsent).1
      = AdmitOutcome.RejectedMutationFailed MutErr.notFound ∧
    (handle_app_drop pFoo [] fsAbsent).2.1 = [] ∧
    (handle_restore_event pFoo [ManagedApp.mk pFoo] fsAbsent).1
      = ReleaseOutcome.RejectedMutationFailed MutErr.notFound ∧
    (handle_restore_event pFoo [ManagedApp.mk pFoo] fsAbsent).2.1
      = [ManagedApp.mk pFoo] := by
  have h1 := (C3_mutation_failure_preserves pFoo [] fsAbsent).1
    MutErr.notFound (by decide) rfl rfl
  have h2 := (C3_mutation_failure_preserves pFoo [ManagedApp.mk pFoo] fsAbsent).2
    MutErr.notFound rfl
  exact ⟨h1.1, h1.2.1, h2.1, h2.2.1⟩

/-- C4: round-trip on a mapping-valued metadata document: a successful
admit leaves the suppression key reading "1" when the document is read
back, and the matching successful release then leaves it reading "0". -/
theorem C4_round_trip (p : FsPath) (apps : List ManagedApp)
    (fs : FsPath → PlistState) (enc : Encoding) (d : List (String × Value))
    (hb : is_app_bundle p = true)
    (hnd : apps.any (fun a => a.path == p) = false)
    (hfile : (fs p).file = PlistDoc.doc enc (Value.dictionary d))
    (hw : (fs p).writeFails = false) :
    (handle_app_drop p apps fs).1 = AdmitOutcome.Added ∧
    plistKey ((handle_app_drop p apps fs).2.2 p) "LSUIElement"
      = some (Value.string "1") ∧
    (handle_restore_event p (handle_app_drop p apps fs).2.1
      (handle_app_drop p apps fs).2.2).1 = ReleaseOutcome.Removed ∧
    plistKey ((handle_restore_event p (handle_app_drop p apps fs).2.1
      (handle_app_drop p apps fs).2.2).2.2 p) "LSUIElement"
      = some (Value.string "0") := by
  have hhide : hide_dock_icon (fs p) = Except.ok (PlistState.mk
      (.doc .xml (.dictionary (dictInsert d "LSUIElement" (.string "1"))))
      false) := by
    simp [hide_dock_icon, hfile, hw]
  have h1 : handle_app_drop p apps fs
      = (AdmitOutcome.Added, apps ++ [ManagedApp.mk p],
         updateFs fs p (PlistState.mk
           (.doc .xml (.dictionary (dictInsert d "LSUIElement" (.string "1"))))
           false)) := by
    simp [handle_app_drop, hb, hnd, hhide]
  have hrest : restore_dock_icon (PlistState.mk
      (.doc .xml (.dictionary (dictInsert d "LSUIElement" (.string "1"))))
      false) = Except.ok (PlistState.mk
      (.doc .xml (.dictionary (dictInsert
        (dictInsert d "LSUIElement" (.string "1")) "LSUIElement" (.string "0"))))
      false) := by
    simp [restore_dock_icon]
  rw [h1]
  refine ⟨rfl, ?_, ?_, ?_⟩
  · simp [updateFs, plistKey, dictGet_dictInsert_self]
  · simp [handle_restore_event, updateFs, hrest]
  · simp [handle_restore_event, updateFs, hrest, plistKey, dictGet_dictInsert_self]

/-- Witness for C4 at /Applications/Foo.app over the empty-dictionary
world. -/
theorem C4_witness :
    (handle_app_drop pFoo [] fs0).1 = AdmitOutcome.Added ∧
    plistKey ((handle_app_drop pFoo [] fs0).2.2 pFoo) "LSUIElement"
      = some (Value.string "1") ∧
    (handle_restore_event pFoo (handle_app_drop pFoo [] fs0).2.1
      (handle_app_drop pFoo [] fs0).2.2).1 = ReleaseOutcome.Removed ∧
    plistKey ((handle_restore_event pFoo (handle_app_drop pFoo [] fs0).2.1
      (handle_app_drop pFoo [] fs0).2.2).2.2 pFoo) "LSUIElement"
      = some (Value.string "0") :=
  C4_round_trip pFoo [] fs0 Encoding.xml [] (by decide) rfl rfl rfl

/-- C7: on a mapping-valued document the mutator rewrites exactly the
suppression key — to "1" when suppressing, "0" when restoring, overwriting
any prior value — every other key reads back unchanged, and the document
is written back in the XML encoding. -/
theorem C7_single_key_frame (st : PlistState) (enc : Encoding)
    (d : List (String × Value))
    (hfile : st.file = PlistDoc.doc enc (Value.dictionary d))
    (hw : st.writeFails = false) :
    (∃ st1, hide_dock_icon st = Except.ok st1 ∧
      st1.file = PlistDoc.doc Encoding.xml
        (Value.dictionary (dictInsert d "LSUIElement" (Value.string "1"))) ∧
      plistKey st1 "LSUIElement" = some (Value.string "1") ∧
      ∀ k, k ≠ "LSUIElement" → plistKey st1 k = dictGet d k) ∧
    (∃ st0, restore_dock_icon st = Except.ok st0 ∧
      st0.file = PlistDoc.doc Encoding.xml
        (Value.dictionary (dictInsert d "LSUIElement" (Value.string "0"))) ∧
      plistKey st0 "LSUIElement" = some (Value.string "0") ∧
      ∀ k, k ≠ "LSUIElement" → plistKey st0 k = dictGet d k) := by
  constructor
  · refine ⟨PlistState.mk
      (.doc .xml (.dictionary (dictInsert d "LSUIElement" (.string "1")))) false,
      by simp [hide_dock_icon, hfile, hw], rfl, ?_, ?_⟩
    · simp [plistKey, dictGet_dictInsert_self]
    · intro k hk
      simp [plistKey, dictGet_dictInsert_ne d _ k _ hk]
  · refine ⟨PlistState.mk
      (.doc .xml (.dictionary (dictInsert d "LSUIElement" (.string "0")))) false,
      by simp [restore_dock_icon, hfile, hw], rfl, ?_, ?_⟩
    · simp [plistKey, dictGet_dictInsert_self]
    · intro k hk
      simp [plistKey, dictGet_dictInsert_ne d _ k _ hk]

/-- Witness for C7 on a two-key document carrying a stale LSUIElement
value. -/
theorem C7_witness :
    ∃ st1, hide_dock_icon (PlistState.mk (.doc .binary (.dictionary
        [("CFBundleName", Value.string "Foo"),
         ("LSUIElement", Value.string "0")])) false) = Except.ok st1 ∧
      plistKey st1 "LSUIElement" = some (Value.string "1") ∧
      plistKey st1 "CFBundleName" = some (Value.string "Foo") := by
  obtain ⟨st1, hok, _hfile, hkey, hother⟩ :=
    (C7_single_key_frame (PlistState.mk (.doc .binary (.dictionary
        [("CFBundleName", Value.string "Foo"),
         ("LSUIElement", Value.string "0")])) false) Encoding.binary
        [("CFBundleName", Value.string "Foo"),
         ("LSUIElement", Value.string "0")] rfl rfl).1
  refine ⟨st1, hok, hkey, ?_⟩
  rw [hother "CFBundleName" (by decide)]
  rfl

/-- C8: the registry invariant is preserved by admit and release: path
uniqueness survives both operations, the surviving entries keep their
order (the result is the old list, the old list with one entry appended,
or an order-preserving sublist of the old list), and a successful admit
appends its entry at the end. -/
theorem C8_registry_invariant (p : FsPath) (apps : List ManagedApp)
    (fs : FsPath → PlistState)
    (h : (apps.map ManagedApp.path).Nodup) :
    (((handle_app_drop p apps fs).2.1.map ManagedApp.path).Nodup ∧
     ((handle_app_drop p apps fs).2.1 = apps ∨
      (handle_app_drop p apps fs).2.1 = apps ++ [ManagedApp.mk p]) ∧
     ((handle_app_drop p apps fs).1 = AdmitOutcome.Added →
      (handle_app_drop p apps fs).2.1 = apps ++ [ManagedApp.mk p])) ∧
    (((handle_restore_event p apps fs).2.1.map ManagedApp.path).Nodup ∧
     (handle_restore_event p apps fs).2.1.Sublist apps) := by
  constructor
  · cases hb : is_app_bundle p with
    | false =>
      refine ⟨?_, Or.inl ?_, ?_⟩ <;> simp [handle_app_drop, hb, h]
    | true =>
      cases hdup : apps.any (fun a => a.path == p) with
      | true =>
        refine ⟨?_, Or.inl ?_, ?_⟩ <;> simp [handle_app_drop, hb, hdup, h]
      | false =>
        cases hm : hide_dock_icon (fs p) with
        | error e =>
          refine ⟨?_, Or.inl ?_, ?_⟩ <;> simp [handle_app_drop, hb, hdup, hm, h]
        | ok st =>
          have hp : p ∉ apps.map ManagedApp.path := by
            intro hmem
            obtain ⟨a, ha, hap⟩ := List.mem_map.mp hmem
            have hfa := List.any_eq_false.mp hdup a ha
            exact hfa (by simp [hap])
          have hnodup : (apps.map ManagedApp.path ++ [p]).Nodup :=
            List.Nodup.append h (List.nodup_singleton p)
              (by simpa [List.disjoint_singleton] using hp)
          refine ⟨?_, Or.inr ?_, fun _ => ?_⟩
          · simpa [handle_app_drop, hb, hdup, hm] using hnodup
          · simp [handle_app_drop, hb, hdup, hm]
          · simp [handle_app_drop, hb, hdup, hm]
  · cases hm : restore_dock_icon (fs p) with
    | error e =>
      constructor <;> simp [handle_restore_event, hm, h]
    | ok st =>
      have hsub : (apps.filter (fun a => a.path != p)).Sublist apps :=
        List.filter_sublist apps
      constructor
      · simp only [handle_restore_event, hm]
        exact h.sublist (hsub.map ManagedApp.path)
      · simp only [handle_restore_event, hm]
        exact hsub

/-- Witness for C8 on a two-entry registry. -/
theorem C8_witness :
    ((handle_app_drop pFoo [ManagedApp.mk pTxt] fs0).2.1.map
      ManagedApp.path).Nodup ∧
    (handle_app_drop pFoo [ManagedApp.mk pTxt] fs0).2.1
      = [ManagedApp.mk pTxt, ManagedApp.mk pFoo] ∧
    ((handle_restore_event pFoo [ManagedApp.mk pTxt, ManagedApp.mk pFoo]
      fs0).2.1.map ManagedApp.path).Nodup := by
  have h1 := C8_registry_invariant pFoo [ManagedApp.mk pTxt] fs0 (by decide)
  have h2 := C8_registry_invariant pFoo
    [ManagedApp.mk pTxt, ManagedApp.mk pFoo] fs0 (by decide)
  refine ⟨h1.1.1, ?_, h2.2.1⟩
  rw [h1.1.2.2 (by rfl)]
  rfl

/-- C1 as stated is false on the code: the Restore arm never checks
membership, so for a path absent from the registry it still invokes the
metadata mutator (the document's suppression key changes from absent to
"0") and reports Removed, not RejectedNotManaged. -/
theorem C1_counterexample :
    (handle_restore_event pFoo [] fs0).1 = ReleaseOutcome.Removed ∧
    ReleaseOutcome.Removed ≠ ReleaseOutcome.RejectedNotManaged ∧
    plistKey ((handle_restore_event pFoo [] fs0).2.2 pFoo) "LSUIElement"
      = some (Value.string "0") ∧
    plistKey (fs0 pFoo) "LSUIElement" = none := by
  exact ⟨rfl, by decide, rfl, rfl⟩

/-- C1 amended: release(p) never returns RejectedNotManaged and invokes
the metadata mutator unconditionally; whenever the mutator call succeeds
it returns Removed and drops every entry whose path equals p (a registry
no-op when p is unmanaged), writing the mutator's result back to the
world at p; an immediately subsequent release(p) whose mutator call also
succeeds again returns Removed and leaves the registry unchanged. -/
theorem C1_release_unconditional (p : FsPath) (apps : List ManagedApp)
    (fs : FsPath → PlistState) (st : PlistState)
    (hm : restore_dock_icon (fs p) = Except.ok st) :
    (∀ q (apps2 : List ManagedApp) (fs2 : FsPath → PlistState),
      (handle_restore_event q apps2 fs2).1 ≠ ReleaseOutcome.RejectedNotManaged) ∧
    (handle_restore_event p apps fs).1 = ReleaseOutcome.Removed ∧
    (handle_restore_event p apps fs).2.1 = apps.filter (fun a => a.path != p) ∧
    (handle_restore_event p apps fs).2.2 p = st ∧
    (∀ st', restore_dock_icon ((handle_restore_event p apps fs).2.2 p)
        = Except.ok st' →
      (handle_restore_event p (handle_restore_event p apps fs).2.1
        (handle_restore_event p apps fs).2.2).1 = ReleaseOutcome.Removed ∧
      (handle_restore_event p (handle_restore_event p apps fs).2.1
        (handle_restore_event p apps fs).2.2).2.1
        = (handle_restore_event p apps fs).2.1) := by
  have h1 : handle_restore_event p apps fs
      = (ReleaseOutcome.Removed, apps.filter (fun a => a.path != p),
         updateFs fs p st) := by
    simp [handle_restore_event, hm]
  refine ⟨?_, ?_, ?_, ?_, ?_⟩
  · intro q apps2 fs2
    unfold handle_restore_event
    cases restore_dock_icon (fs2 q) <;> simp
  · rw [h1]
  · rw [h1]
  · rw [h1]; simp [updateFs]
  · intro st' hm'
    rw [h1] at hm' ⊢
    have h2 : handle_restore_event p (apps.filter (fun a => a.path != p))
        (updateFs fs p st)
        = (ReleaseOutcome.Removed,
           (apps.filter (fun a => a.path != p)).filter (fun a => a.path != p),
           updateFs (updateFs fs p st) p st') := by
      have : restore_dock_icon ((updateFs fs p st) p) = Except.ok st' := by
        simpa [updateFs] using hm'
      simp [handle_restore_event, this]
    rw [h2]
    refine ⟨rfl, ?_⟩
    simp [List.filter_filter]

/-- Witness for C1's amended statement: a managed path is released twice
in a row; both calls report Removed and the second leaves the registry
empty as before. -/
theorem C1_release_witness :
    (handle_restore_event pFoo [ManagedApp.mk pFoo] fs0).1
      = ReleaseOutcome.Removed ∧
    (handle_restore_event pFoo [ManagedApp.mk pFoo] fs0).2.1 = [] ∧
    (handle_restore_event pFoo
      (handle_restore_event pFoo [ManagedApp.mk pFoo] fs0).2.1
      (handle_restore_event pFoo [ManagedApp.mk pFoo] fs0).2.2).1
      = ReleaseOutcome.Removed := by
  have h := C1_release_unconditional pFoo [ManagedApp.mk pFoo] fs0 stShown rfl
  refine ⟨h.2.1, ?_, (h.2.2.2.2 stShown (by rfl)).1⟩
  rw [h.2.2.1]
  rfl

end DockDodger
